import Mathlib

/-!
Verification of the funcX endpoint/SDK specification against the source.

The embedding below follows the source files:
  * `funcx_sdk/funcx/sdk/client.py` — the `FuncXClient` class: task-status
    table maintenance, `get_task`, `get_batch_result`, `batch_run`,
    `version_check`, `register_endpoint`, and the `session_task_group_id`
    initialisation idiom.
  * `docs/configs/polaris.py` — Simple-strategy scaling parameters.
  * the integration tests of the endpoint Interchange.

Components whose implementation is not part of the source tree (the
Interchange message pump, the result spool, the Simple scaling strategy,
`compare_versions`, `handle_response_errors`, and the endpoint startup
wrapper) are modelled from the specification text; each such definition
carries a doc comment starting with "Modelled from the spec:".

Python dictionaries are embedded as association lists, raised exceptions as
`Except` errors that carry the mutable state as of the raise point (Python
exceptions do not roll back prior mutations, so a faithful embedding must
record the state at the moment of the raise).
-/

namespace FuncX

/-! ## Exit codes (spec §6) -/

/-- Modelled from the spec: shutdown classification of an endpoint process.
"Exit codes. 0 clean shutdown; 1 unhandled; 2 configuration error;
3 registration/version mismatch; 4 lock contention." -/
inductive ShutdownKind
  | clean
  | unhandled
  | configError
  | versionMismatch
  | lockContention
deriving DecidableEq

/-- Modelled from the spec: the numeric process exit code of each shutdown
classification (spec §6, "Exit codes"). -/
def exit_code : ShutdownKind → Nat
  | .clean => 0
  | .unhandled => 1
  | .configError => 2
  | .versionMismatch => 3
  | .lockContention => 4

/-! ## The Interchange state machine (spec §4.5), for the SIGTERM scenario -/

/-- Modelled from the spec: the state set of the Interchange core state
machine (§4.5): Starting, Registering, Connecting, Running, Reconnecting,
Draining, Stopped. -/
inductive IxState
  | Starting
  | Registering
  | Connecting
  | Running
  | Reconnecting
  | Draining
  | Stopped
deriving DecidableEq

/-- Modelled from the spec: the triggers of the Interchange transition table
(§4.5). `shutdownSignal` covers SIGTERM / SIGINT / fatal worker-side error;
`drainDone` covers "spool drained or drain deadline elapsed". -/
inductive IxTrigger
  | lockAcquired
  | registrationOk
  | registrationFatal
  | channelsOpen
  | ioError
  | backoffElapsed
  | shutdownSignal
  | drainDone
deriving DecidableEq

/-- Modelled from the spec: the transition table of the Interchange state
machine (§4.5). A trigger not listed for a state leaves the state
unchanged. -/
def ix_step : IxState → IxTrigger → IxState
  | .Starting, .lockAcquired => .Registering
  | .Registering, .registrationOk => .Connecting
  | .Registering, .registrationFatal => .Stopped
  | .Connecting, .channelsOpen => .Running
  | .Running, .ioError => .Reconnecting
  | .Reconnecting, .backoffElapsed => .Connecting
  | .Running, .shutdownSignal => .Draining
  | .Draining, .drainDone => .Stopped
  | s, _ => s

/-- Modelled from the spec: the SIGTERM scenario (§8 scenario 1): a SIGTERM
delivered to the process fires the `shutdownSignal` trigger, the drain then
completes (spool drained or drain deadline elapsed, §5 "Cancellation"), and
a shutdown that reaches `Stopped` through the drain path is a clean
shutdown, reported as exit code 0. -/
def sigterm_run (s : IxState) : IxState × Nat :=
  let drained := ix_step s .shutdownSignal
  let final := ix_step drained .drainDone
  (final, if final = .Stopped then exit_code .clean else exit_code .unhandled)

/-! ## Round trip through the Interchange with the identity mock executor -/

/-- A task message: `task_id` (a UUID, embedded as a number) and an opaque
`task_buffer` (spec §3, "Task message"; `funcx_common.messagepack` `Task`). -/
structure TaskMsg where
  task_id : Nat
  task_buffer : String
deriving DecidableEq

/-- A result message: `task_id` and `data` (spec §3, "Result message";
`funcx_common.messagepack` `Result`). -/
structure ResultMsg where
  task_id : Nat
  data : String
deriving DecidableEq

/-- Modelled from the spec: the identity mock executor of the integration
tests (`MockExecutor`, not under src): every submitted task completes with a
result whose body is exactly the task's `task_buffer`. -/
def mock_executor (t : TaskMsg) : Nat × String :=
  (t.task_id, t.task_buffer)

/-- Modelled from the spec: the Interchange ingress/egress pipeline
(`funcx_endpoint.endpoint.interchange`, not under src): each task consumed
from the task queue is submitted to the executor, and each
`(task_id, result_body)` pair the executor produces is published on the
result queue as a Result message (spec §2 data flow, §4.5 flows 1–2). -/
def interchange_round_trip (exec : TaskMsg → Nat × String) (task_queue : List TaskMsg) :
    List ResultMsg :=
  task_queue.map (fun t => { task_id := (exec t).1, data := (exec t).2 })

/-! ## Spool replay (spec §4.5 flow 3, invariant I3) -/

/-- A spool entry: a file in `unacked_results/` whose name is the task id and
whose contents are the serialized result bytes (spec §3, "Spool entry"). -/
structure SpoolEntry where
  name : String
  contents : String
deriving DecidableEq

/-- An observable event of the egress/replay pipeline: a publish of a body to
the result queue, or the deletion of a spool file. -/
inductive EgressEvent
  | publish (name : String) (body : String)
  | delete (name : String)
deriving DecidableEq

/-- Modelled from the spec: spool replay (`funcx_endpoint.endpoint.interchange`,
not under src). "On entering Running, enumerate `iter_pending()` and schedule
each entry for publish via the same egress path" (§4.5 flow 3); the egress
path publishes the stored bytes, awaits broker confirmation, then deletes the
spool file (§4.5 flow 2, invariant I3). The returned list is the event trace
in order. -/
def spool_replay (entries : List SpoolEntry) : List EgressEvent :=
  entries.flatMap (fun e => [.publish e.name e.contents, .delete e.name])

/-- The spool directory contents after replay: the entries whose deletion
never appeared in the trace. -/
def replay_final_spool (entries : List SpoolEntry) : List SpoolEntry :=
  entries.filter (fun e => decide (EgressEvent.delete e.name ∉ spool_replay entries))

/-! ## The Simple scaling strategy (spec §4.4; parameters from docs/configs/polaris.py) -/

/-- Parameters of the Simple strategy and of the provider behind it:
`min_blocks`/`max_blocks` bound the block pool, `max_idletime` is the idle
window (seconds) before scale-down (`docs/configs/polaris.py` passes
`SimpleStrategy(max_idletime=300)` over a provider with `min_blocks=0`,
`max_blocks=2`). -/
structure StrategyParams where
  min_blocks : Nat
  max_blocks : Nat
  max_idletime : Nat
deriving DecidableEq

/-- The observable state of the scaling control loop: the number of currently
allocated worker blocks and the wall-clock idle time (seconds) since the last
task submission (spec §4.4). -/
structure StrategyState where
  blocks : Nat
  idle_time : Nat
deriving DecidableEq

/-- Modelled from the spec: one tick of the Simple strategy control loop
(`funcx_endpoint.strategies.SimpleStrategy`, not under src). "Maintain enough
blocks to cover outstanding tasks up to `max_blocks`; when no tasks have been
submitted for `max_idletime` seconds, scale down to `min_blocks`. Never below
`min_blocks`, never above `max_blocks`. Tie-break in favour of scaling out
over in." (§4.4). `outstanding` is the executor's in-flight count observed at
this tick, `dt` the seconds elapsed since the previous tick. -/
def simple_strategy_step (p : StrategyParams) (s : StrategyState)
    (outstanding : Nat) (dt : Nat) : StrategyState :=
  let idle := if outstanding = 0 then s.idle_time + dt else 0
  let target :=
    if outstanding = 0 ∧ p.max_idletime ≤ idle then p.min_blocks
    else max s.blocks (min outstanding p.max_blocks)
  { blocks := min p.max_blocks (max p.min_blocks target), idle_time := idle }

/-- The states the scaling control loop can reach: any start within the
configured bounds (the provider's `init_blocks` is required to respect them),
followed by any sequence of ticks. -/
inductive StrategyReachable (p : StrategyParams) : StrategyState → Prop
  | init (b : Nat) (hmin : p.min_blocks ≤ b) (hmax : b ≤ p.max_blocks) :
      StrategyReachable p { blocks := b, idle_time := 0 }
  | step (s : StrategyState) (outstanding dt : Nat) :
      StrategyReachable p s → StrategyReachable p (simple_strategy_step p s outstanding dt)

/-! ## Version data and the version check (`client.py` `version_check`) -/

/-- A release version, embedded as a major/minor/patch triple. -/
structure Version where
  major : Nat
  minor : Nat
  patch : Nat
deriving DecidableEq

/-- Strict "older than" on versions: lexicographic on (major, minor, patch). -/
def Version.lt (a b : Version) : Prop :=
  a.major < b.major ∨
    (a.major = b.major ∧
      (a.minor < b.minor ∨ (a.minor = b.minor ∧ a.patch < b.patch)))

instance (a b : Version) : Decidable (Version.lt a b) := by
  unfold Version.lt; infer_instance

/-- The error raised when a version is below the service's minimum. -/
structure VersionMismatchErr where
  current : Version
  minimum : Version
deriving DecidableEq

/-- Modelled from the spec: `compare_versions` (`funcx.version`, not under
src) raises a `VersionMismatch` error exactly when the given version is older
than the service-reported minimum ("Version mismatch (endpoint older than
`min_ep_version` reported by the service) is fatal", §4.6). -/
def compare_versions (current min_version : Version) : Except VersionMismatchErr Unit :=
  if Version.lt current min_version then .error ⟨current, min_version⟩ else .ok ()

/-- The body of the `GET /version` response: `min_ep_version` and
`min_sdk_version` (spec §6, "Control-plane HTTP"). -/
structure VersionData where
  min_ep_version : Version
  min_sdk_version : Version
deriving DecidableEq

/-- `FuncXClient.version_check` (client.py lines 195–209): fetch the version
data, compare the SDK's own version against `min_sdk_version`, and — whenever
an `endpoint_version` is given — compare it against `min_ep_version`. The
`GET /version` response body is passed as `data`. -/
def version_check (sdk_version : Version) (data : VersionData)
    (endpoint_version : Option Version) : Except VersionMismatchErr Unit := do
  compare_versions sdk_version data.min_sdk_version
  match endpoint_version with
  | some v => compare_versions v data.min_ep_version
  | none => pure ()

/-- Outcome of an endpoint startup attempt: the process exit code and whether
a daemon lock file is left behind in the endpoint directory. -/
structure StartupOutcome where
  exitCode : Nat
  lockFilePresent : Bool
deriving DecidableEq

/-- Modelled from the spec: the endpoint startup wrapper
(`funcx_endpoint.endpoint`, not under src) runs the registration version
check; a version mismatch "is fatal and aborts startup" (§4.6) with exit
code 3 (§6) and "no lock file is left behind" (§8 scenario 5). A passing
check proceeds to a normal run holding the lock. -/
def endpoint_startup (sdk_version : Version) (data : VersionData)
    (endpoint_version : Version) : StartupOutcome :=
  match version_check sdk_version data (some endpoint_version) with
  | .error _ => { exitCode := exit_code .versionMismatch, lockFilePresent := false }
  | .ok _ => { exitCode := exit_code .clean, lockFilePresent := true }

/-! ## Web-call traces of client construction and endpoint registration -/

/-- The control-plane HTTP calls the embedded client code paths can issue. -/
inductive WebCall
  | getVersion
  | registerEndpointCall
deriving DecidableEq

/-- The calls issued by one `FuncXClient.version_check` run: exactly one
`GET /version` (`data = self.web_client.get_version()`, client.py line 200). -/
def version_check_trace : List WebCall := [.getVersion]

/-- The `GET /version`-relevant calls issued by `FuncXClient.__init__`
(client.py lines 167–168): `version_check` runs iff `do_version_check` is
true. -/
def client_init_trace (do_version_check : Bool) : List WebCall :=
  if do_version_check then version_check_trace else []

/-- The calls issued by `FuncXClient.register_endpoint` (client.py lines
439–470): an unconditional `self.version_check()` followed by the
registration request itself. -/
def register_endpoint_trace : List WebCall :=
  version_check_trace ++ [.registerEndpointCall]

/-- Number of `GET /version` requests in a call trace. -/
def count_get_version (trace : List WebCall) : Nat :=
  trace.count .getVersion

/-! ## `session_task_group_id` initialisation (`client.py` lines 133–137) -/

/-- The `task_group_id` constructor argument of `FuncXClient`: annotated in
the source as `None | uuid.UUID | str`. -/
inductive TaskGroupArg
  | noneArg
  | uuidArg (u : Nat)
  | strArg (s : String)
deriving DecidableEq

/-- Hexadecimal digit character for a value below 16. -/
def hexDigit (n : Nat) : Char :=
  if n < 10 then Char.ofNat (48 + n) else Char.ofNat (87 + n)

/-- Fixed-width base-16 rendering, most significant digit first. -/
def hexDigits : Nat → Nat → List Char
  | 0, _ => []
  | k + 1, n => hexDigits k (n / 16) ++ [hexDigit (n % 16)]

/-- Python's `str()` of a `uuid.UUID`: the 32 hex digits of its 128-bit
value (hyphens omitted in the embedding; only nonemptiness and determinism
matter here). -/
def uuidToString (u : Nat) : String :=
  String.mk (hexDigits 32 u)

/-- Python truthiness of a `task_group_id` argument: `None` is falsy, a
`uuid.UUID` is truthy, a `str` is truthy iff nonempty. -/
def TaskGroupArg.truthy : TaskGroupArg → Bool
  | .noneArg => false
  | .uuidArg _ => true
  | .strArg s => !(s == "")

/-- Python's `str()` of a `task_group_id` argument. -/
def TaskGroupArg.pyStr : TaskGroupArg → String
  | .noneArg => "None"
  | .uuidArg u => uuidToString u
  | .strArg s => s

/-- `self.session_task_group_id = task_group_id and str(task_group_id) or
str(uuid.uuid4())` (client.py lines 135–137), with Python's `and`/`or`
value semantics spelled out: a falsy `task_group_id` short-circuits `and` to
the falsy argument itself, which `or` then replaces by the fresh UUID4
string; a truthy argument yields `str(task_group_id)`, which `or` keeps iff
it is itself truthy (nonempty). -/
def session_task_group_id (task_group_id : TaskGroupArg) (fresh_uuid4 : String) : String :=
  if task_group_id.truthy then
    if task_group_id.pyStr == "" then fresh_uuid4 else task_group_id.pyStr
  else fresh_uuid4

/-! ## The task-status table (`client.py` `_update_task_table`, `get_task`,
`get_batch_result`) -/

/-- One entry of `FuncXClient._task_status_table`: the dict
`{"pending": …, "status": …}` optionally extended with `"result"` and
`"completion_t"` (client.py lines 235 and 247). Exceptions are raised, never
stored, so no exception field exists. The deserialized result object is
embedded as a `String`. -/
structure TaskStatus where
  pending : Bool
  status : String
  result : Option String := none
  completion_t : Option String := none
deriving DecidableEq

instance : Inhabited TaskStatus :=
  ⟨{ pending := true, status := "unknown" }⟩

/-- `FuncXClient._task_status_table`, a Python dict keyed by task id,
embedded as an association list (later bindings shadow earlier ones). -/
def TaskTable : Type := List (String × TaskStatus)

instance : DecidableEq TaskTable := by
  unfold TaskTable; infer_instance

/-- Python `d[k]` / `d.get(k)` on the embedded dict. -/
def dictGet : TaskTable → String → Option TaskStatus
  | [], _ => none
  | (k, v) :: t, k' => if k' = k then some v else dictGet t k'

/-- Python `d[k] = v` on the embedded dict. -/
def dictSet (t : TaskTable) (k : String) (v : TaskStatus) : TaskTable :=
  (k, v) :: t

/-- Lower-casing of one character, as Python `str.lower` acts on the ASCII
range (the range the service's status strings use). -/
def lower_char (c : Char) : Char :=
  if 65 ≤ c.toNat ∧ c.toNat ≤ 90 then Char.ofNat (c.toNat + 32) else c

/-- Python `str.lower()` applied to a status string. -/
def py_lower (s : String) : String :=
  String.mk (s.data.map lower_char)

/-- The parsed return message of the service for one task (`r_dict` in
`_update_task_table` after the `json.loads`): the optional `status`,
`result`, `exception` and `completion_t` fields. `result` holds the still
serialized payload; `exception` the encoded remote exception. -/
structure ReturnMsg where
  status : Option String
  result : Option String := none
  exception : Option String := none
  completion_t : Option String := none
deriving DecidableEq

/-- The exceptions `_update_task_table` can raise (client.py lines 237–251):
`ValueError` for a non-pending message missing both result and exception,
`KeyError` for a missing `completion_t` on a non-pending message,
`SerializationError` when the result payload fails to deserialize,
`FuncxTaskExecutionFailed` for an exception field, and the
`NotImplementedError("unreachable")` guard. -/
inductive UpdateErr
  | valueError
  | keyError
  | serializationError
  | taskExecutionFailed (exception : String) (completion_t : String)
  | notImplementedError
deriving DecidableEq

/-- `FuncXClient._update_task_table` (client.py lines 215–254). The
deserializer `fx_serializer.deserialize` is passed as `deser` (`none` =
deserialization raises). A raise is an `Except.error` carrying the exception
and the `_task_status_table` as of the raise point (Python mutations are not
rolled back by a raise); success carries the updated table and the returned
status dict. The table write `self._task_status_table[task_id] = status` is
the method's final statement on every path. -/
def update_task_table (deser : String → Option String) (table : TaskTable)
    (return_msg : ReturnMsg) (task_id : String) :
    Except (UpdateErr × TaskTable) (TaskTable × TaskStatus) :=
  let r_status := py_lower (return_msg.status.getD "unknown")
  let pending := !(r_status == "success" || r_status == "failed")
  let status : TaskStatus := { pending := pending, status := r_status }
  if pending then
    .ok (dictSet table task_id status, status)
  else if return_msg.result.isNone && return_msg.exception.isNone then
    .error (.valueError, table)
  else
    match return_msg.completion_t with
    | none => .error (.keyError, table)
    | some completion_t =>
      match return_msg.result with
      | some r =>
        match deser r with
        | none => .error (.serializationError, table)
        | some r_obj =>
          let status := { status with result := some r_obj, completion_t := some completion_t }
          .ok (dictSet table task_id status, status)
      | none =>
        match return_msg.exception with
        | some exc => .error (.taskExecutionFailed exc completion_t, table)
        | none => .error (.notImplementedError, table)

/-- The observable outcome of one `FuncXClient.get_task` call: the task
table afterwards, the returned status dict (or the propagated exception),
and the number of web requests issued. -/
structure GetTaskOutcome where
  table : TaskTable
  result : Except UpdateErr TaskStatus
  web_calls : Nat

/-- `FuncXClient.get_task` (client.py lines 256–276): a cached entry whose
`"pending"` value is `False` is returned as-is; otherwise (entry absent —
`.get(task_id, {})` — or still pending) one `web_client.get_task` request is
issued and `_update_task_table` processes its body. `web` maps a task id to
the service's response body. -/
def get_task (web : String → ReturnMsg) (deser : String → Option String)
    (table : TaskTable) (task_id : String) : GetTaskOutcome :=
  let cached := dictGet table task_id
  let cached_pending := (cached.map TaskStatus.pending).getD true
  match cached, cached_pending with
  | some task, false => { table := table, result := .ok task, web_calls := 0 }
  | _, _ =>
    match update_task_table deser table (web task_id) task_id with
    | .ok (t, rets) => { table := t, result := .ok rets, web_calls := 1 }
    | .error (e, t) => { table := t, result := .error e, web_calls := 1 }

/-- The still-pending ids of a batch (client.py lines 310–314): the task ids
whose cached entry has `.get("pending", True) is True` (an absent entry
counts as pending). -/
def pending_filter (table : TaskTable) (ids : List String) : List String :=
  ids.filter (fun tid => ((dictGet table tid).map TaskStatus.pending).getD true)

/-- The loop body of `get_batch_result` (client.py lines 324–337), iterating
over `task_id_list` and threading the task table. For an id in the pending
set: a missing entry in the response dict (`KeyError`) is logged and skipped,
and any exception from `_update_task_table` is logged and skipped — in both
cases the id is absent from the returned results; a successful update
contributes `(task_id, rets)`. For an id outside the pending set the current
cached entry `self._task_status_table[task_id]` is returned. `resp` is the
response's `r["results"]` dict (`none` = `KeyError`). -/
def batch_loop (deser : String → Option String) (resp : String → Option ReturnMsg)
    (pending_ids : List String) :
    TaskTable → List String → TaskTable × List (String × TaskStatus)
  | table, [] => (table, [])
  | table, tid :: rest =>
    if tid ∈ pending_ids then
      match resp tid with
      | none => batch_loop deser resp pending_ids table rest
      | some data =>
        match update_task_table deser table data tid with
        | .ok (t, rets) =>
          ((batch_loop deser resp pending_ids t rest).1,
            (tid, rets) :: (batch_loop deser resp pending_ids t rest).2)
        | .error (_, t) => batch_loop deser resp pending_ids t rest
    else
      ((batch_loop deser resp pending_ids table rest).1,
        (tid, (dictGet table tid).getD default) ::
          (batch_loop deser resp pending_ids table rest).2)

/-- The observable outcome of one `FuncXClient.get_batch_result` call: the
table afterwards, the per-task results, and the `get_batch_status` requests
issued (each recorded as the id list it carried). -/
structure BatchOutcome where
  table : TaskTable
  results : List (String × TaskStatus)
  requests : List (List String)

/-- `FuncXClient.get_batch_result` (client.py lines 304–339): compute the
still-pending ids, issue a single `get_batch_status` request for them iff
there are any, then walk `task_id_list`, answering non-pending ids from the
cache and pending ids from the response. `webBatch` maps the requested id
list to the response's `results` dict. -/
def get_batch_result (webBatch : List String → (String → Option ReturnMsg))
    (deser : String → Option String) (table : TaskTable)
    (task_id_list : List String) : BatchOutcome :=
  let pending_task_ids := pending_filter table task_id_list
  let requests := if pending_task_ids.isEmpty then [] else [pending_task_ids]
  let resp := if pending_task_ids.isEmpty then (fun _ => none) else webBatch pending_task_ids
  let final := batch_loop deser resp pending_task_ids table task_id_list
  { table := final.1, results := final.2, requests := requests }

/-! ## `batch_run` response handling (`client.py` lines 396–437) -/

/-- One entry of the batch-submission response's `results` list: the fields
`batch_run` reads (`task_uuid`, `http_status_code`) plus the error payload
consumed by `handle_response_errors`, embedded as `reason`. -/
structure BatchResponseEntry where
  task_uuid : String
  http_status_code : Nat
  reason : String
deriving DecidableEq

/-- The exception `handle_response_errors` raises for one failed response
entry. -/
structure BatchRunError where
  entry : BatchResponseEntry
deriving DecidableEq

/-- Modelled from the spec: `handle_response_errors` (`funcx.errors`, not
under src) raises the error encoded in the single response entry it is given
("surfaces only the first error from a multi-response batch", §9 — the
"first" comes from the `batch_run` loop below, which is source code). -/
def handle_response_errors (result : BatchResponseEntry) : BatchRunError :=
  ⟨result⟩

/-- The response-processing loop of `batch_run` (client.py lines 415–423):
walk `r["results"]` in order, append each `task_uuid`, and on the first
entry whose `http_status_code` is not 200 raise via
`handle_response_errors`; the accumulator holds the uuids seen so far in
reverse. -/
def batch_run_loop :
    List BatchResponseEntry → List String → Except BatchRunError (List String)
  | [], task_uuids => .ok task_uuids.reverse
  | result :: rest, task_uuids =>
    let task_uuids := result.task_uuid :: task_uuids
    if result.http_status_code ≠ 200 then .error (handle_response_errors result)
    else batch_run_loop rest task_uuids

/-- `FuncXClient.batch_run` from the submission response on (client.py lines
413–437, synchronous client): process the response's `results` list and
return the task uuids, or propagate the first raised error. -/
def batch_run (response_results : List BatchResponseEntry) :
    Except BatchRunError (List String) :=
  batch_run_loop response_results []

/-! ## Concrete sample inputs, used to exercise the theorems -/

/-- A completed (non-pending) cached status entry. -/
def sample_done_status : TaskStatus :=
  { pending := false, status := "success", result := some "42", completion_t := some "T" }

/-- A one-entry task table holding a completed task `"a"`. -/
def sample_table : TaskTable :=
  [("a", sample_done_status)]

/-- A web oracle answering every `get_task` request with a pending status. -/
def sample_web : String → ReturnMsg :=
  fun _ => { status := some "pending" }

/-- A batch-status oracle whose response dict is empty. -/
def sample_web_batch : List String → (String → Option ReturnMsg) :=
  fun _ _ => none

/-- A deserializer that accepts every payload unchanged. -/
def sample_deser : String → Option String :=
  fun s => some s

/-! ## Helper lemmas -/

theorem hexDigits_length (k : Nat) : ∀ n : Nat, (hexDigits k n).length = k := by
  induction k with
  | zero => intro n; rfl
  | succ k ih => intro n; simp [hexDigits, ih]

theorem uuidToString_ne_empty (u : Nat) : uuidToString u ≠ "" := by
  intro h
  have h2 : hexDigits 32 u = [] := congrArg String.data h
  have h3 := hexDigits_length 32 u
  rw [h2] at h3
  simp at h3

theorem dictGet_dictSet (t : TaskTable) (k k' : String) (v : TaskStatus) :
    dictGet (dictSet t k v) k' = if k' = k then some v else dictGet t k' := rfl

/-- A raise inside `update_task_table` carries the table as of the raise
point; on every raising path that table is the caller's original one. -/
theorem update_task_table_error_eq (deser : String → Option String)
    (table : TaskTable) (msg : ReturnMsg) (task_id : String) (e : UpdateErr)
    (t : TaskTable)
    (h : update_task_table deser table msg task_id = .error (e, t)) :
    t = table := by
  unfold update_task_table at h
  dsimp only at h
  repeat' split at h
  all_goals simp_all

/-- A successful `update_task_table` run writes exactly one binding: the
returned status dict at `task_id`. -/
theorem update_task_table_ok_eq (deser : String → Option String)
    (table : TaskTable) (msg : ReturnMsg) (task_id : String) (t : TaskTable)
    (st : TaskStatus)
    (h : update_task_table deser table msg task_id = .ok (t, st)) :
    t = dictSet table task_id st := by
  unfold update_task_table at h
  dsimp only at h
  repeat' split at h
  all_goals
    first
      | exact Except.noConfusion h
      | (injection h with hpair; injection hpair with h1 h2; subst h1; subst h2; rfl)

/-! ## Claim theorems -/

/-- C1: for every task message with task id `T` and buffer `B` on the task
queue, the endpoint running the identity mock executor publishes on the
result queue a result message whose `task_id` equals `T` and whose `data`
equals `B`. -/
theorem round_trip_identity (T : Nat) (B : String) (q : List TaskMsg)
    (h : ({ task_id := T, task_buffer := B } : TaskMsg) ∈ q) :
    ∃ r ∈ interchange_round_trip mock_executor q, r.task_id = T ∧ r.data = B := by
  refine ⟨{ task_id := T, data := B }, ?_, rfl, rfl⟩
  unfold interchange_round_trip mock_executor
  exact List.mem_map.mpr ⟨{ task_id := T, task_buffer := B }, h, rfl⟩

theorem round_trip_identity_witness :
    ∃ r ∈ interchange_round_trip mock_executor
        [{ task_id := 7, task_buffer := "abc" }], r.task_id = 7 ∧ r.data = "abc" :=
  round_trip_identity 7 "abc" [{ task_id := 7, task_buffer := "abc" }]
    (List.mem_singleton.mpr rfl)

/-- C3: a running Interchange that receives SIGTERM transitions to a
graceful drain (`Running → Draining`) and the process then stops with exit
code 0; the spec's ten-second wall-clock bound is abstracted to the
completion of the drain (`drainDone`: spool drained or drain deadline
elapsed). -/
theorem sigterm_graceful_exit_zero :
    ix_step .Running .shutdownSignal = .Draining ∧
    sigterm_run .Running = (.Stopped, 0) := by
  decide

/-- C5: whenever the `GET /version` response carries a `min_ep_version`
strictly greater than the endpoint's running version, `version_check`
(which passes the given `endpoint_version` to `compare_versions` against
`min_ep_version`) raises, and endpoint startup aborts with exit code 3
leaving no lock file behind. -/
theorem version_mismatch_aborts (sdk_version ep_version : Version)
    (data : VersionData) (h : Version.lt ep_version data.min_ep_version) :
    (∃ e, version_check sdk_version data (some ep_version) = .error e) ∧
    endpoint_startup sdk_version data ep_version =
      { exitCode := 3, lockFilePresent := false } := by
  have hcheck : ∃ e, version_check sdk_version data (some ep_version) = .error e := by
    by_cases hs : Version.lt sdk_version data.min_sdk_version
    · refine ⟨⟨sdk_version, data.min_sdk_version⟩, ?_⟩
      unfold version_check compare_versions
      rw [if_pos hs]
      rfl
    · refine ⟨⟨ep_version, data.min_ep_version⟩, ?_⟩
      unfold version_check compare_versions
      rw [if_neg hs]
      show (if Version.lt ep_version data.min_ep_version
          then Except.error (ε := VersionMismatchErr) ⟨ep_version, data.min_ep_version⟩
          else Except.ok ()) = _
      rw [if_pos h]
  refine ⟨hcheck, ?_⟩
  obtain ⟨e, he⟩ := hcheck
  unfold endpoint_startup
  rw [he]
  rfl

theorem version_mismatch_aborts_witness :
    Version.lt ⟨0, 3, 0⟩ ⟨99, 0, 0⟩ ∧
    ((∃ e, version_check ⟨1, 0, 0⟩ ⟨⟨99, 0, 0⟩, ⟨0, 0, 0⟩⟩ (some ⟨0, 3, 0⟩) = .error e) ∧
      endpoint_startup ⟨1, 0, 0⟩ ⟨⟨99, 0, 0⟩, ⟨0, 0, 0⟩⟩ ⟨0, 3, 0⟩ =
        { exitCode := 3, lockFilePresent := false }) :=
  ⟨by decide,
    version_mismatch_aborts ⟨1, 0, 0⟩ ⟨0, 3, 0⟩ ⟨⟨99, 0, 0⟩, ⟨0, 0, 0⟩⟩ (by decide)⟩

/-- C6: a client constructed with `do_version_check=True` followed by one
`register_endpoint` call issues exactly two `GET /version` requests — one at
construction, one during registration — because `register_endpoint` invokes
`version_check` unconditionally: even a client constructed with
`do_version_check=False` issues one `GET /version` during registration. -/
theorem get_version_called_twice :
    count_get_version (client_init_trace true ++ register_endpoint_trace) = 2 ∧
    count_get_version register_endpoint_trace = 1 ∧
    count_get_version (client_init_trace false ++ register_endpoint_trace) = 1 := by
  decide

/-- C10: `session_task_group_id` equals `str(task_group_id)` when the
`task_group_id` argument is truthy, and the freshly generated UUID4 string
otherwise — in particular `None` and the empty string silently yield the
fresh random id. -/
theorem session_task_group_id_truthy (arg : TaskGroupArg) (fresh_uuid4 : String) :
    session_task_group_id arg fresh_uuid4 =
      if arg.truthy then arg.pyStr else fresh_uuid4 := by
  cases arg with
  | noneArg => rfl
  | uuidArg u =>
    have h : (uuidToString u == "") = false :=
      beq_eq_false_iff_ne.mpr (uuidToString_ne_empty u)
    simp [session_task_group_id, TaskGroupArg.truthy, TaskGroupArg.pyStr, h]
  | strArg s =>
    by_cases hs : s = ""
    · subst hs; rfl
    · simp [session_task_group_id, TaskGroupArg.truthy, TaskGroupArg.pyStr, hs]

theorem batch_run_loop_first_error (entries : List BatchResponseEntry)
    (e : BatchResponseEntry)
    (h : entries.find? (fun r => r.http_status_code != 200) = some e) :
    ∀ acc : List String,
      batch_run_loop entries acc = .error (handle_response_errors e) := by
  induction entries with
  | nil => simp at h
  | cons r rest ih =>
    intro acc
    rw [List.find?_cons] at h
    by_cases hr : (r.http_status_code != 200) = true
    · rw [hr] at h
      injection h with h
      subst h
      unfold batch_run_loop
      dsimp only
      rw [if_pos (by simpa using hr)]
    · have hf : (r.http_status_code != 200) = false := by
        simpa using hr
      rw [hf] at h
      have hr2 : ¬r.http_status_code ≠ 200 := by
        simpa using hr
      unfold batch_run_loop
      dsimp only
      rw [if_neg hr2]
      exact ih h _

/-- C4: whenever the batch-submission response's `results` list contains an
entry with `http_status_code` other than 200, `batch_run` raises the error
derived (via `handle_response_errors`) from the first such entry in response
order, even when later entries of the same multi-response batch also
failed. -/
theorem batch_run_raises_first_error (response_results : List BatchResponseEntry)
    (e : BatchResponseEntry)
    (h : response_results.find? (fun r => r.http_status_code != 200) = some e) :
    batch_run response_results = .error (handle_response_errors e) :=
  batch_run_loop_first_error response_results e h []

theorem batch_run_raises_first_error_witness :
    batch_run
        [{ task_uuid := "t1", http_status_code := 200, reason := "" },
          { task_uuid := "t2", http_status_code := 500, reason := "server error" },
          { task_uuid := "t3", http_status_code := 404, reason := "not found" }] =
      .error (handle_response_errors
        { task_uuid := "t2", http_status_code := 500, reason := "server error" }) :=
  batch_run_raises_first_error _ _ (by decide)

/-- C7: with `min_blocks ≤ max_blocks` (as in the polaris configuration,
`min_blocks=0 ≤ max_blocks=2`), every state the Simple-strategy control loop
can reach keeps the allocated block count between `min_blocks` and
`max_blocks`; and a tick that observes zero outstanding submissions with
accumulated idle time at least `max_idletime` sets the block count to
exactly `min_blocks`. -/
theorem simple_strategy_bounds_and_idle (p : StrategyParams) (s : StrategyState)
    (dt : Nat) (hp : p.min_blocks ≤ p.max_blocks)
    (hr : StrategyReachable p s) :
    (p.min_blocks ≤ s.blocks ∧ s.blocks ≤ p.max_blocks) ∧
    (p.max_idletime ≤ s.idle_time + dt →
      (simple_strategy_step p s 0 dt).blocks = p.min_blocks) := by
  constructor
  · induction hr with
    | init b hmin hmax => exact ⟨hmin, hmax⟩
    | step s2 outstanding dt2 hr2 ih =>
      unfold simple_strategy_step
      dsimp only
      constructor
      · exact Nat.le_min.mpr ⟨hp, Nat.le_max_left _ _⟩
      · exact Nat.min_le_left _ _
  · intro hidle
    unfold simple_strategy_step
    dsimp only
    rw [if_pos rfl, if_pos ⟨rfl, hidle⟩, Nat.max_self, Nat.min_eq_right hp]

theorem simple_strategy_bounds_and_idle_witness :
    ((0 ≤ 1 ∧ 1 ≤ 2) ∧
      (300 ≤ 0 + 300 →
        (simple_strategy_step { min_blocks := 0, max_blocks := 2, max_idletime := 300 }
            { blocks := 1, idle_time := 0 } 0 300).blocks = 0)) :=
  simple_strategy_bounds_and_idle
    { min_blocks := 0, max_blocks := 2, max_idletime := 300 }
    { blocks := 1, idle_time := 0 } 300 (by decide)
    (StrategyReachable.init 1 (by decide) (by decide))

/-- C8: `_update_task_table` writes the `_task_status_table` entry only as
its final statement, after all parsing and deserialization succeeded, so on
every raising path (missing result data, missing `completion_t`,
deserialization failure, remote exception, unreachable guard) the table is
left exactly as the caller had it. -/
theorem update_task_table_raise_no_write (deser : String → Option String)
    (table : TaskTable) (return_msg : ReturnMsg) (task_id : String)
    (e : UpdateErr) (t : TaskTable)
    (h : update_task_table deser table return_msg task_id = .error (e, t)) :
    t = table :=
  update_task_table_error_eq deser table return_msg task_id e t h

theorem update_task_table_raise_no_write_witness :
    ([("x", (default : TaskStatus))] : TaskTable) = [("x", (default : TaskStatus))] :=
  update_task_table_raise_no_write (fun _ => none) [("x", default)]
    { status := some "success", result := some "blob", completion_t := some "T" }
    "tid" .serializationError [("x", default)] rfl

theorem spool_replay_split (entries : List SpoolEntry) (e : SpoolEntry)
    (hmem : e ∈ entries) (hnodup : (entries.map SpoolEntry.name).Nodup) :
    ∃ l1 l2, spool_replay entries =
        l1 ++ EgressEvent.publish e.name e.contents :: l2 ∧
      EgressEvent.delete e.name ∈ l2 ∧ EgressEvent.delete e.name ∉ l1 := by
  induction entries with
  | nil => simp at hmem
  | cons a rest ih =>
    rw [List.map_cons, List.nodup_cons] at hnodup
    obtain ⟨hna, hnr⟩ := hnodup
    rcases List.mem_cons.mp hmem with he | he
    · subst he
      refine ⟨[], EgressEvent.delete e.name :: spool_replay rest, ?_, ?_, ?_⟩
      · simp [spool_replay, List.flatMap_cons]
      · exact List.mem_cons_self _ _
      · simp
    · obtain ⟨l1, l2, hsplit, hdel, hnotdel⟩ := ih he hnr
      refine ⟨EgressEvent.publish a.name a.contents ::
          EgressEvent.delete a.name :: l1, l2, ?_, hdel, ?_⟩
      · rw [spool_replay, List.flatMap_cons]
        rw [spool_replay] at hsplit
        rw [hsplit]
        rfl
      · intro hcon
        simp only [List.mem_cons] at hcon
        rcases hcon with h1 | h1 | h1
        · exact EgressEvent.noConfusion h1
        · injection h1 with hn
          have hmm := List.mem_map_of_mem SpoolEntry.name he
          rw [hn] at hmm
          exact hna hmm
        · exact hnotdel h1

/-- C2: for every entry pre-existing in the `unacked_results/` spool when
the Interchange starts (spool filenames are distinct), the replay publishes
the entry's exact bytes to the result queue at least once, deletes the file
only after that publish (the publish splits the trace, the delete lies
strictly after it), and by the end of the replay the file is gone; the
spec's ten-second wall-clock bound is abstracted to the completion of the
replay. -/
theorem spool_replay_publish_before_delete (entries : List SpoolEntry)
    (e : SpoolEntry) (hmem : e ∈ entries)
    (hnodup : (entries.map SpoolEntry.name).Nodup) :
    (∃ l1 l2, spool_replay entries =
        l1 ++ EgressEvent.publish e.name e.contents :: l2 ∧
      EgressEvent.delete e.name ∈ l2 ∧ EgressEvent.delete e.name ∉ l1) ∧
    replay_final_spool entries = [] := by
  refine ⟨spool_replay_split entries e hmem hnodup, ?_⟩
  unfold replay_final_spool
  rw [List.filter_eq_nil_iff]
  intro a ha
  have hdel : EgressEvent.delete a.name ∈ spool_replay entries :=
    List.mem_flatMap.mpr ⟨a, ha, by simp⟩
  simp [hdel]

theorem spool_replay_publish_before_delete_witness :
    ((∃ l1 l2, spool_replay
        [{ name := "u1", contents := "GIBBERISH" }, { name := "u2", contents := "x" }] =
          l1 ++ EgressEvent.publish "u1" "GIBBERISH" :: l2 ∧
        EgressEvent.delete "u1" ∈ l2 ∧ EgressEvent.delete "u1" ∉ l1) ∧
      replay_final_spool
        [{ name := "u1", contents := "GIBBERISH" }, { name := "u2", contents := "x" }] = []) :=
  spool_replay_publish_before_delete
    [{ name := "u1", contents := "GIBBERISH" }, { name := "u2", contents := "x" }]
    { name := "u1", contents := "GIBBERISH" } (by simp) (by simp)

theorem batch_loop_cached (deser : String → Option String)
    (resp : String → Option ReturnMsg) (pending_ids : List String)
    (task_id : String) (st : TaskStatus) (hnp : task_id ∉ pending_ids) :
    ∀ (rest : List String) (t : TaskTable),
      dictGet t task_id = some st → task_id ∈ rest →
      (task_id, st) ∈ (batch_loop deser resp pending_ids t rest).2 := by
  intro rest
  induction rest with
  | nil =>
    intro t _ hmem
    simp at hmem
  | cons tid rest2 ih =>
    intro t hget hmem
    by_cases htid : tid ∈ pending_ids
    · have hne : task_id ≠ tid := fun hh => hnp (hh ▸ htid)
      have hmem2 : task_id ∈ rest2 := by
        rcases List.mem_cons.mp hmem with hh | hh
        · exact absurd hh hne
        · exact hh
      simp only [batch_loop]
      rw [if_pos htid]
      cases hresp : resp tid with
      | none =>
        dsimp only
        exact ih t hget hmem2
      | some data =>
        dsimp only
        cases hupd : update_task_table deser t data tid with
        | ok pr =>
          obtain ⟨t2, rets⟩ := pr
          dsimp only
          have ht2 : t2 = dictSet t tid rets :=
            update_task_table_ok_eq deser t data tid t2 rets hupd
          have hget2 : dictGet t2 task_id = some st := by
            rw [ht2, dictGet_dictSet, if_neg hne]
            exact hget
          exact List.mem_cons_of_mem _ (ih t2 hget2 hmem2)
        | error pr =>
          obtain ⟨e2, t2⟩ := pr
          dsimp only
          have ht2 : t2 = t :=
            update_task_table_error_eq deser t data tid e2 t2 hupd
          rw [ht2]
          exact ih t hget hmem2
    · simp only [batch_loop]
      rw [if_neg htid]
      by_cases heq : task_id = tid
      · subst heq
        rw [hget]
        exact List.mem_cons_self _ _
      · have hmem2 : task_id ∈ rest2 := by
          rcases List.mem_cons.mp hmem with hh | hh
          · exact absurd hh heq
          · exact hh
        exact List.mem_cons_of_mem _ (ih t hget hmem2)

/-- C9: a task id whose cached `_task_status_table` entry has `pending =
False` is answered by `get_task` straight from the cache — the cached entry
is returned, no web request is issued, and the table is unchanged, so
repeated `get_task` calls after completion are idempotent — and
`get_batch_result` likewise answers such ids from the cache while its single
`get_batch_status` request (issued only if needed) carries exactly the
still-pending ids. -/
theorem completed_tasks_answered_from_cache (web : String → ReturnMsg)
    (webBatch : List String → (String → Option ReturnMsg))
    (deser : String → Option String) (table : TaskTable) (task_id : String)
    (st : TaskStatus) (ids : List String)
    (hc : dictGet table task_id = some st) (hp : st.pending = false)
    (hmem : task_id ∈ ids) :
    get_task web deser table task_id =
      { table := table, result := .ok st, web_calls := 0 } ∧
    (get_batch_result webBatch deser table ids).requests =
      (if (pending_filter table ids).isEmpty then []
        else [pending_filter table ids]) ∧
    (task_id, st) ∈ (get_batch_result webBatch deser table ids).results := by
  refine ⟨?_, rfl, ?_⟩
  · unfold get_task
    rw [hc]
    dsimp only
    have hfalse : (Option.map TaskStatus.pending (some st)).getD true = false := by
      simp [hp]
    rw [hfalse]
  · have hnp : task_id ∉ pending_filter table ids := by
      intro hin
      have hpred := (List.mem_filter.mp hin).2
      rw [hc] at hpred
      simp [hp] at hpred
    unfold get_batch_result
    dsimp only
    exact batch_loop_cached deser _ _ task_id st hnp ids table hc hmem

theorem completed_tasks_answered_from_cache_witness :
    (get_task sample_web sample_deser sample_table "a" =
      { table := sample_table, result := .ok sample_done_status, web_calls := 0 } ∧
    (get_batch_result sample_web_batch sample_deser sample_table ["a"]).requests =
      (if (pending_filter sample_table ["a"]).isEmpty then []
        else [pending_filter sample_table ["a"]]) ∧
    ("a", sample_done_status) ∈
      (get_batch_result sample_web_batch sample_deser sample_table ["a"]).results) :=
  completed_tasks_answered_from_cache sample_web sample_web_batch sample_deser
    sample_table "a" sample_done_status ["a"] rfl rfl (List.mem_singleton.mpr rfl)

end FuncX
